import Mathlib

/-!
Verification of the serverless subscription-filter plugin
(src/serverless_plugin_subscription_filter.js, the version with the static
and dynamic resource-limit checks and indexed logical identifiers).

The JavaScript source is shallowly embedded below.  Remote AWS calls are
modelled by passing their responses as explicit arguments; JavaScript field
values that may be absent or non-string are modelled by the JSVal type;
fallible code returns Except.  Host-tool naming helpers (the serverless
framework naming service) are external collaborators and are modelled as an
abstract record of string functions.
-/

/-- A JavaScript value as it can appear in a configuration field.  Floats and
NaN are not needed by any claim; numbers are modelled as integers. -/
inductive JSVal where
  | str (s : String)
  | num (n : Int)
  | boolean (b : Bool)
  | null
  | undefined
deriving DecidableEq, Repr

/-- JavaScript truthiness of a JSVal. -/
def JSVal.truthy : JSVal → Bool
  | .str s => !(s == "")
  | .num n => !(n == 0)
  | .boolean b => b
  | .null => false
  | .undefined => false

/-- Models the JavaScript test (typeof v === String). -/
def JSVal.isString : JSVal → Bool
  | .str _ => true
  | _ => false

/-- The string content of a JSVal known (after validation) to be a string. -/
def jsStr : JSVal → String
  | .str s => s
  | _ => ""

/-- Models strict equality (v === s) between a JSVal and a string. -/
def jsStrEq (v : JSVal) (s : String) : Bool :=
  match v with
  | .str t => t == s
  | _ => false

/-- Models the JavaScript String(v) conversion used by lodash countBy when it
builds its result object keys. -/
def jsToKey : JSVal → String
  | .str s => s
  | .num n => toString n
  | .boolean b => if b then "true" else "false"
  | .null => "null"
  | .undefined => "undefined"

/-- A subscriptionFilter event setting as declared in configuration: the three
fields the plugin reads.  A field the configuration omits is JSVal.undefined. -/
structure Setting where
  stage : JSVal
  logGroupName : JSVal
  filterPattern : JSVal
deriving DecidableEq, Repr

/-- A declared function event; only its subscriptionFilter property matters to
the plugin.  none models an event without (or with a falsy) subscriptionFilter. -/
structure Event where
  subscriptionFilter : Option Setting
deriving DecidableEq, Repr

/-- A declared function: its service name and its ordered event list. -/
structure FunctionDef where
  name : String
  events : List Event
deriving DecidableEq, Repr

/-- The errors the plugin raises (serverless.classes.Error values).  Instead of
reproducing the prose of each message, each constructor carries exactly the
data the message interpolates, so an error value still names what the message
names. -/
inductive PluginError where
  | stageRequired
  | logGroupNameRequired
  | filterPatternRequired
  | resourceLimitExceeded (logGroupName : String)
  | logGroupNotFound
  | awsFailure (code message : String)
  | jsonSyntaxError
deriving DecidableEq, Repr

/-- validateSettings (source lines 249-280): a falsy setting means skip; then
stage, logGroupName, filterPattern are checked in that order, each with
(not truthy) or (typeof not string) raising the field error. -/
def validateSettings : Option Setting → Except PluginError Bool
  | none => .ok false
  | some s =>
    if !s.stage.truthy || !s.stage.isString then
      .error .stageRequired
    else if !s.logGroupName.truthy || !s.logGroupName.isString then
      .error .logGroupNameRequired
    else if !s.filterPattern.truthy || !s.filterPattern.isString then
      .error .filterPatternRequired
    else
      .ok true

/-- A JSVal is a non-empty string. -/
def nonEmptyString (v : JSVal) : Prop :=
  ∃ s : String, v = .str s ∧ s ≠ ""

instance (v : JSVal) : Decidable (nonEmptyString v) :=
  match v with
  | .str s =>
    if h : s = "" then
      .isFalse (by intro hne; obtain ⟨t, ht, hne2⟩ := hne; cases ht; exact hne2 h)
    else
      .isTrue ⟨s, rfl, h⟩
  | .num n => .isFalse (by intro hne; obtain ⟨t, ht, _⟩ := hne; cases ht)
  | .boolean b => .isFalse (by intro hne; obtain ⟨t, ht, _⟩ := hne; cases ht)
  | .null => .isFalse (by intro hne; obtain ⟨t, ht, _⟩ := hne; cases ht)
  | .undefined => .isFalse (by intro hne; obtain ⟨t, ht, _⟩ := hne; cases ht)

lemma truthy_and_isString_iff (v : JSVal) :
    (v.truthy && v.isString) = true ↔ nonEmptyString v := by
  cases v with
  | str s =>
    simp [JSVal.truthy, JSVal.isString, nonEmptyString]
  | num n => simp [JSVal.truthy, JSVal.isString, nonEmptyString]
  | boolean b => simp [JSVal.truthy, JSVal.isString, nonEmptyString]
  | null => simp [JSVal.truthy, JSVal.isString, nonEmptyString]
  | undefined => simp [JSVal.truthy, JSVal.isString, nonEmptyString]

lemma field_check_fails_iff (v : JSVal) :
    (!v.truthy || !v.isString) = true ↔ ¬ nonEmptyString v := by
  rw [← truthy_and_isString_iff]
  cases h1 : v.truthy <;> cases h2 : v.isString <;> simp [h1, h2]

/-- The CloudWatch Logs limit constant (source line 206). -/
def LIMIT_CLOUDWATCH_FILTER_COUNT : Nat := 2

/-- The logGroupName keys of all declared events that carry a subscriptionFilter
property (source lines 306-311): flatMap over all functions, keep events with a
truthy subscriptionFilter, and read logGroupName, unvalidated, converted to the
string key lodash countBy would use. -/
def declaredLogGroupKeys (functions : List FunctionDef) : List String :=
  (((functions.flatMap FunctionDef.events).filterMap Event.subscriptionFilter).map
    (fun s => jsToKey s.logGroupName))

/-- The first key (in first-occurrence order) whose occurrence count exceeds the
limit.  lodash countBy lists keys in first-occurrence order (with JavaScript
object reordering of integer-like keys, which no theorem below depends on:
they only use which keys are over the limit, not which one is reported first). -/
def firstOverLimit (names : List String) : Option String :=
  names.find? (fun k => decide (LIMIT_CLOUDWATCH_FILTER_COUNT < names.count k))

/-- preCheckResourceLimitExceeded (source lines 305-328): throw the
resource-limit error naming the first log-group key declared more than
LIMIT_CLOUDWATCH_FILTER_COUNT times. -/
def preCheckResourceLimitExceeded (functions : List FunctionDef) :
    Except PluginError Unit :=
  match firstOverLimit (declaredLogGroupKeys functions) with
  | some k => .error (.resourceLimitExceeded k)
  | none => .ok ()

/-- One entry of a describeSubscriptionFilters response. -/
structure SubscriptionFilterInfo where
  destinationArn : String
deriving DecidableEq, Repr

/-- getSubscriptionFilterDestinationArn (source lines 472-489): null when the
log group has no subscription filter, else the first entry destinationArn.
The remote response list is passed in explicitly. -/
def getSubscriptionFilterDestinationArn
    (subscriptionFilters : List SubscriptionFilterInfo) : Option String :=
  match subscriptionFilters with
  | [] => none
  | f :: _ => some f.destinationArn

/-- checkResourceLimitExceeded (source lines 330-368), taking the two resolved
lookup results: the existing destination arn (data[0]) and the guessed one
(data[1]).  A falsy existing arn (null, or the empty string) resolves; a
strict inequality rejects with the resource-limit error naming the log group;
equality resolves. -/
def checkResourceLimitExceeded (logGroupName : String)
    (existingDest guessedDest : Option String) : Except PluginError Unit :=
  match existingDest with
  | none => .ok ()
  | some d =>
    if d == "" then .ok ()
    else if !(some d == guessedDest) then
      .error (.resourceLimitExceeded logGroupName)
    else .ok ()

/-- An output of a previously deployed CloudFormation stack. -/
structure StackOutput where
  OutputKey : String
  OutputValue : String
deriving DecidableEq, Repr

/-- A stack in a describeStacks response. -/
structure Stack where
  Outputs : List StackOutput
deriving DecidableEq, Repr

/-- An AWS SDK rejection: its error code and message. -/
structure AwsError where
  code : String
  message : String
deriving DecidableEq, Repr

/-- Does the first list occur as a leading segment of the second? -/
def matchesAt : List Char → List Char → Bool
  | [], _ => true
  | _ :: _, [] => false
  | a :: as, b :: bs => a == b && matchesAt as bs

/-- Does sub occur as a contiguous segment of l? -/
def containsChars (sub : List Char) : List Char → Bool
  | [] => matchesAt sub []
  | c :: rest => matchesAt sub (c :: rest) || containsChars sub rest

/-- Models JavaScript s.includes(sub). -/
def strIncludes (s sub : String) : Bool := containsChars sub.data s.data

/-- The host-tool naming service and provider accessors the plugin calls; an
external collaborator, modelled as an abstract record of string functions. -/
structure Naming where
  getNormalizedFunctionName : String → String
  normalizeNameToAlphaNumericOnly : String → String
  getLambdaLogicalId : String → String
  getStackName : String

/-- buildLambdaFunctionName (source lines 467-470). -/
def buildLambdaFunctionName (nm : Naming) (functionName : String) : String :=
  nm.getStackName ++ "-" ++ functionName

/-- guessSubscriptionFilterDestinationArn (source lines 491-517), taking the
describeStacks response (or its rejection) explicitly: find the output keyed by
logGroupName ++ lambdaFunctionName among all stack outputs; resolve null when
it is absent; normalize a ValidationError whose message includes the text
"does not exist" to null; pass any other rejection through. -/
def guessSubscriptionFilterDestinationArn (logGroupName lambdaFunctionName : String)
    (describeStacksResult : Except AwsError (List Stack)) :
    Except AwsError (Option String) :=
  match describeStacksResult with
  | .ok stackList =>
    match (stackList.flatMap Stack.Outputs).find?
        (fun o => o.OutputKey == logGroupName ++ lambdaFunctionName) with
    | none => .ok none
    | some o => .ok (some o.OutputValue)
  | .error err =>
    if err.code == "ValidationError" && strIncludes err.message "does not exist" then
      .ok none
    else
      .error err

/-- One entry of a describeLogGroups response page. -/
structure LogGroupInfo where
  logGroupName : String
  arn : String
deriving DecidableEq, Repr

/-- One describeLogGroups response page.  The AWS listing is filtered by name
on the server side; entries here are the returned candidates. -/
structure LogGroupPage where
  logGroups : List LogGroupInfo
deriving DecidableEq, Repr

/-- The outcome of a promise as its consumers can observe it: fulfilled with a
value, rejected with an error, or pending forever (settlement dropped by the
executor). -/
inductive PromiseOutcome (α : Type) where
  | ok (val : α)
  | error (e : PluginError)
  | pending
deriving DecidableEq, Repr

/-- getLogGroupArn (source lines 421-447).  The successive remote responses
(first call, then each call made with the previous continuation token) are
passed as a list; none means the recursion asked for more responses than were
modelled.  An empty page rejects with the LogGroup-not-found error; an exact
logGroupName match on the page this call received resolves its arn.  When the
page has no exact match, the source returns the recursive promise into its
then-chain without tying it to the outer resolve of the explicitly constructed
promise: a rejection anywhere in the recursion still reaches the outer reject
through the catch handler, but a fulfillment of the recursion is dropped and
the outer promise never settles — it stays pending. -/
def getLogGroupArn (logGroupName : String) :
    List LogGroupPage → Option (PromiseOutcome String)
  | [] => none
  | page :: rest =>
    if page.logGroups.isEmpty then some (.error .logGroupNotFound)
    else
      match page.logGroups.find? (fun g => g.logGroupName == logGroupName) with
      | some g => some (.ok g.arn)
      | none =>
        match getLogGroupArn logGroupName rest with
        | none => none
        | some (.error e) => some (.error e)
        | some (.ok _) => some .pending
        | some .pending => some .pending

/-- Numeric value of a hexadecimal digit. -/
def hexVal (c : Char) : Option Nat :=
  if '0' ≤ c ∧ c ≤ '9' then some (c.toNat - '0'.toNat)
  else if 'a' ≤ c ∧ c ≤ 'f' then some (c.toNat - 'a'.toNat + 10)
  else if 'A' ≤ c ∧ c ≤ 'F' then some (c.toNat - 'A'.toNat + 10)
  else none

/-- The character a single-character JSON escape sequence denotes. -/
def unescapeChar (c : Char) : Option Char :=
  if c = '"' then some '"'
  else if c = '\\' then some '\\'
  else if c = '/' then some '/'
  else if c = 'b' then some (Char.ofNat 8)
  else if c = 'f' then some (Char.ofNat 12)
  else if c = 'n' then some (Char.ofNat 10)
  else if c = 'r' then some (Char.ofNat 13)
  else if c = 't' then some (Char.ofNat 9)
  else none

/-- JSON string-literal body: the characters standing between the two quotes.
Returns the denoted character sequence, or none when the body is not a valid
JSON string body (a raw quote, a raw control character, a dangling or unknown
escape, or a malformed unicode escape). -/
def jsonBodyChars : List Char → Option (List Char)
  | [] => some []
  | c :: rest =>
    if c = '"' then none
    else if c = '\\' then
      match rest with
      | [] => none
      | e :: rest2 =>
        if e = 'u' then
          match rest2 with
          | a :: b :: c2 :: d :: rest3 =>
            match hexVal a, hexVal b, hexVal c2, hexVal d with
            | some ha, some hb, some hc, some hd =>
              (jsonBodyChars rest3).map
                (fun l => Char.ofNat (((ha * 16 + hb) * 16 + hc) * 16 + hd) :: l)
            | _, _, _, _ => none
          | _ => none
        else
          match unescapeChar e with
          | some d => (jsonBodyChars rest2).map (fun l => d :: l)
          | none => none
    else if c.toNat < 32 then none
    else (jsonBodyChars rest).map (fun l => c :: l)

/-- jsonBodyChars lifted to String. -/
def jsonStringBody (s : String) : Option String :=
  (jsonBodyChars s.data).map (fun l => String.mk l)

/-- The character transformation of escapeDoubleQuote. -/
def escapeChars : List Char → List Char
  | [] => []
  | c :: rest =>
    if c = '"' then '\\' :: '"' :: escapeChars rest else c :: escapeChars rest

/-- escapeDoubleQuote (source lines 463-465): replace every double quote by a
backslash followed by a double quote. -/
def escapeDoubleQuote (s : String) : String := String.mk (escapeChars s.data)

/-- getSubscriptionFilterLogicalId (source lines 449-454). -/
def getSubscriptionFilterLogicalId (nm : Naming)
    (functionName logGroupName : String) (index : Nat) : String :=
  nm.getNormalizedFunctionName functionName ++ "SubscriptionFilter" ++
    nm.normalizeNameToAlphaNumericOnly logGroupName ++ toString index

/-- getLambdaPermissionLogicalId (source lines 456-461). -/
def getLambdaPermissionLogicalId (nm : Naming)
    (functionName logGroupName : String) (index : Nat) : String :=
  nm.getNormalizedFunctionName functionName ++ "LambdaPermission" ++
    nm.normalizeNameToAlphaNumericOnly logGroupName ++ toString index

/-- A setting as it reaches doCompile: validation guarantees the three fields
are strings (and the orchestrator has rewritten stage, see
compileSubscriptionFilterEvents). -/
structure CompiledSetting where
  stage : String
  logGroupName : String
  filterPattern : String
deriving DecidableEq, Repr

/-- The Properties of an emitted AWS::Logs::SubscriptionFilter resource.
DestinationArn is the parsed Fn::GetAtt pair. -/
structure SubscriptionFilterProperties where
  DestinationArn : String × String
  FilterPattern : String
  FilterName : String
  LogGroupName : String
deriving DecidableEq, Repr

/-- An emitted subscription-filter resource fragment (resource type constant
AWS::Logs::SubscriptionFilter is left implicit). -/
structure SubscriptionFilterFragment where
  Properties : SubscriptionFilterProperties
  DependsOn : String
deriving DecidableEq, Repr

/-- The Properties of an emitted AWS::Lambda::Permission resource. -/
structure PermissionProperties where
  FunctionName : String × String
  Action : String
  Principal : String
  SourceArn : String
deriving DecidableEq, Repr

/-- An emitted permission resource fragment (resource type constant
AWS::Lambda::Permission left implicit). -/
structure PermissionFragment where
  Properties : PermissionProperties
deriving DecidableEq, Repr

/-- A resource fragment recorded in the compiled template. -/
inductive Fragment where
  | permission (frag : PermissionFragment)
  | subscriptionFilter (frag : SubscriptionFilterFragment)
deriving DecidableEq, Repr

/-- compileSubscriptionFilter (source lines 370-395).  The source interpolates
its inputs into a fixed JSON skeleton and applies JSON.parse.  The skeleton
itself is well-formed, so the parse is modelled per interpolated chunk: it
succeeds exactly when every chunk standing in a string-literal position is a
valid JSON string body, and each parsed string field is the unescaping of its
body.  (A chunk containing a raw unescaped quote is modelled as a failed
parse; the theorems below only evaluate this model on escape-free chunks,
where it agrees with JSON.parse exactly.) -/
def compileSubscriptionFilter (nm : Naming) (setting : CompiledSetting)
    (functionName : String) (index : Nat) :
    Option (String × SubscriptionFilterFragment) :=
  let lambdaLogicalId := nm.getLambdaLogicalId functionName
  let lambdaPermissionLogicalId :=
    getLambdaPermissionLogicalId nm functionName setting.logGroupName index
  let filterPattern := escapeDoubleQuote setting.filterPattern
  let logGroupName := setting.logGroupName
  match jsonStringBody lambdaLogicalId, jsonStringBody filterPattern,
      jsonStringBody (lambdaPermissionLogicalId ++ "-" ++ setting.stage),
      jsonStringBody logGroupName, jsonStringBody lambdaPermissionLogicalId with
  | some dest, some fp, some fname, some lg, some dep =>
    some (getSubscriptionFilterLogicalId nm functionName setting.logGroupName index,
      { Properties :=
          { DestinationArn := (dest, "Arn"), FilterPattern := fp,
            FilterName := fname, LogGroupName := lg },
        DependsOn := dep })
  | _, _, _, _, _ => none

/-- compilePermission (source lines 397-419), with the same per-chunk model of
JSON.parse as compileSubscriptionFilter. -/
def compilePermission (nm : Naming) (region : String) (setting : CompiledSetting)
    (functionName : String) (logGroupArn : String) (index : Nat) :
    Option (String × PermissionFragment) :=
  let lambdaLogicalId := nm.getLambdaLogicalId functionName
  match jsonStringBody lambdaLogicalId,
      jsonStringBody ("logs." ++ region ++ ".amazonaws.com"),
      jsonStringBody logGroupArn with
  | some fn, some principal, some arn =>
    some (getLambdaPermissionLogicalId nm functionName setting.logGroupName index,
      { Properties :=
          { FunctionName := (fn, "Arn"), Action := "lambda:InvokeFunction",
            Principal := principal, SourceArn := arn } })
  | _, _, _ => none

/-- The compiled CloudFormation template Resources mapping, as an association
list in insertion order. -/
abbrev Template := List (String × Fragment)

/-- One lodash merge of a single-key object into the Resources mapping: a new
key is appended; an existing key has its fragment deep-merged, which for the
complete fragments produced here amounts to replacing it.  (No theorem below
exercises the collision branch: merged keys are distinct by construction.) -/
def mergeResource (tpl : Template) (key : String) (frag : Fragment) : Template :=
  if tpl.any (fun p => p.1 == key) then
    tpl.map (fun p => if p.1 == key then (p.1, frag) else p)
  else
    tpl ++ [(key, frag)]

/-- doCompile (source lines 282-303): run the dynamic limit check, resolve the
log-group arn, build and merge the permission fragment, then build and merge
the subscription-filter fragment.  The remote responses are passed explicitly;
none means the page list did not cover the pagination (see getLogGroupArn).
A pending arn lookup leaves the whole doCompile promise pending, since its
then-chain waits on it.  The catch clause rewraps an error message into a
serverless error, modelled as the identity on PluginError. -/
def doCompile (nm : Naming) (region : String) (setting : CompiledSetting)
    (functionName : String) (index : Nat) (existingDest guessedDest : Option String)
    (pages : List LogGroupPage) (tpl : Template) :
    Option (PromiseOutcome Template) :=
  match checkResourceLimitExceeded setting.logGroupName existingDest guessedDest with
  | .error e => some (.error e)
  | .ok _ =>
    match getLogGroupArn setting.logGroupName pages with
    | none => none
    | some (.error e) => some (.error e)
    | some .pending => some .pending
    | some (.ok logGroupArn) =>
      match compilePermission nm region setting functionName logGroupArn index with
      | none => some (.error .jsonSyntaxError)
      | some (permId, permFrag) =>
        match compileSubscriptionFilter nm setting functionName index with
        | none => some (.error .jsonSyntaxError)
        | some (subId, subFrag) =>
          some (.ok (mergeResource (mergeResource tpl permId (.permission permFrag))
            subId (.subscriptionFilter subFrag)))

/-- A pending doCompile invocation the orchestrator has queued: the function
name, the (stage-rewritten) setting, and the event occurrence index. -/
abbrev CompileCall := String × CompiledSetting × Nat

/-- The setting value doCompile receives: the validated string fields, with
stage already rewritten by the orchestrator. -/
def toCompiled (s : Setting) (newStage : String) : CompiledSetting :=
  { stage := newStage, logGroupName := jsStr s.logGroupName,
    filterPattern := jsStr s.filterPattern }

/-- The per-function event loop of compileSubscriptionFilterEvents (source
lines 230-244), from event position i on: validate each event setting (a
validation throw aborts the run), skip an event whose declared stage is not
the current stage, and queue a doCompile call for each remaining one, with its
stage rewritten to stage-suffix.  Math.random is modelled by rand, an
arbitrary injected function of the call position. -/
def processEventsFrom (stage : String) (rand : String → Nat → String)
    (functionName : String) : Nat → List Event → Except PluginError (List CompileCall)
  | _, [] => .ok []
  | i, e :: rest =>
    match e.subscriptionFilter with
    | none => processEventsFrom stage rand functionName (i + 1) rest
    | some s =>
      match validateSettings (some s) with
      | .error err => .error err
      | .ok _ =>
        if jsStrEq s.stage stage then
          match processEventsFrom stage rand functionName (i + 1) rest with
          | .error err => .error err
          | .ok calls =>
            .ok ((functionName, toCompiled s (stage ++ "-" ++ rand functionName i), i)
              :: calls)
        else
          processEventsFrom stage rand functionName (i + 1) rest

/-- The function loop of compileSubscriptionFilterEvents. -/
def processFunctions (stage : String) (rand : String → Nat → String) :
    List FunctionDef → Except PluginError (List CompileCall)
  | [] => .ok []
  | f :: rest =>
    match processEventsFrom stage rand f.name 0 f.events with
    | .error err => .error err
    | .ok calls =>
      match processFunctions stage rand rest with
      | .error err => .error err
      | .ok more => .ok (calls ++ more)

/-- compileSubscriptionFilterEvents (source lines 223-247): the static
pre-check runs first, then every function event list is walked; the result is
the list of queued doCompile calls (whose join is the run outcome). -/
def compileSubscriptionFilterEvents (stage : String) (rand : String → Nat → String)
    (functions : List FunctionDef) : Except PluginError (List CompileCall) :=
  match preCheckResourceLimitExceeded functions with
  | .error err => .error err
  | .ok _ => processFunctions stage rand functions

lemma strData_append (a b : String) : (a ++ b).data = a.data ++ b.data := by
  cases a; cases b; rfl

/-- The last character of a character list, if any. -/
def lastChar (l : List Char) : Option Char := l.reverse.head?

lemma head?_append_left {α : Type} (l₁ l₂ : List α) (h : l₁ ≠ []) :
    (l₁ ++ l₂).head? = l₁.head? := by
  cases l₁ with
  | nil => exact absurd rfl h
  | cons c t => rfl

lemma append_ne_nil_right {α : Type} (l₁ l₂ : List α) (h : l₂ ≠ []) :
    l₁ ++ l₂ ≠ [] := by
  intro e
  exact h (List.append_eq_nil.mp e).2

lemma lastChar_append (l₁ l₂ : List Char) (h : l₂ ≠ []) :
    lastChar (l₁ ++ l₂) = lastChar l₂ := by
  unfold lastChar
  rw [List.reverse_append]
  refine head?_append_left _ _ ?_
  intro e
  exact h (by simpa using congrArg List.reverse e)

lemma lastChar_concat (l : List Char) (x : Char) : lastChar (l ++ [x]) = some x := by
  unfold lastChar
  rw [List.reverse_append]
  rfl

lemma lastChar_nested (a b c : List Char) (x : Char) :
    lastChar (a ++ (b ++ (c ++ [x]))) = some x := by
  rw [← List.append_assoc, ← List.append_assoc, lastChar_concat]

/-- Two generated identifiers with occurrence indexes 0 and 1 always differ:
their last characters differ, whatever the normalization produced. -/
lemma id01_ne (nfA nfB tagA tagB lgA lgB : String) :
    nfA ++ tagA ++ lgA ++ toString (0 : Nat) ≠ nfB ++ tagB ++ lgB ++ toString (1 : Nat) := by
  intro h
  have hd := congrArg String.data h
  simp only [strData_append, List.append_assoc] at hd
  have h0 : lastChar (nfA.data ++ (tagA.data ++ (lgA.data ++ (toString (0 : Nat)).data))) =
      some '0' := by
    rw [show ((toString (0 : Nat)).data) = ['0'] from rfl]
    exact lastChar_nested _ _ _ _
  have h1 : lastChar (nfB.data ++ (tagB.data ++ (lgB.data ++ (toString (1 : Nat)).data))) =
      some '1' := by
    rw [show ((toString (1 : Nat)).data) = ['1'] from rfl]
    exact lastChar_nested _ _ _ _
  rw [hd, h1] at h0
  exact absurd (Option.some.inj h0) (by decide)

/-- A SubscriptionFilter identifier never equals a LambdaPermission identifier
of the same function: after the common normalized-function prefix the fixed
role tags start with different characters. -/
lemma subId_ne_permId (nm : Naming) (fn lgA lgB : String) (iA iB : Nat) :
    getSubscriptionFilterLogicalId nm fn lgA iA ≠
      getLambdaPermissionLogicalId nm fn lgB iB := by
  intro h
  have hd := congrArg String.data h
  simp only [getSubscriptionFilterLogicalId, getLambdaPermissionLogicalId,
    strData_append, List.append_assoc] at hd
  have h2 := List.append_cancel_left hd
  have h3 := congrArg List.head? h2
  simp only [List.cons_append, List.head?_cons] at h3
  exact absurd (Option.some.inj h3) (by decide)

/-- A string every character of which may stand unescaped in a JSON string
body: no quote, no backslash, no control character. -/
def jsonPlain (s : String) : Prop :=
  ∀ c ∈ s.data, c ≠ '"' ∧ c ≠ '\\' ∧ 32 ≤ c.toNat

/-- A string whose only JSON-relevant characters are double quotes: no
backslash, no control character.  escapeDoubleQuote makes such a string a
valid JSON string body. -/
def quoteSafe (s : String) : Prop :=
  ∀ c ∈ s.data, c ≠ '\\' ∧ 32 ≤ c.toNat

lemma jsonBodyChars_plain (l : List Char)
    (h : ∀ c ∈ l, c ≠ '"' ∧ c ≠ '\\' ∧ 32 ≤ c.toNat) :
    jsonBodyChars l = some l := by
  induction l with
  | nil => rfl
  | cons c rest ih =>
    obtain ⟨h1, h2, h3⟩ := h c (List.mem_cons_self c rest)
    have hrest := ih (fun d hd => h d (List.mem_cons_of_mem c hd))
    rw [jsonBodyChars.eq_def]
    simp [h1, h2, Nat.not_lt.mpr h3, hrest]

lemma jsonBodyChars_escape (l : List Char)
    (h : ∀ c ∈ l, c ≠ '\\' ∧ 32 ≤ c.toNat) :
    jsonBodyChars (escapeChars l) = some l := by
  induction l with
  | nil => rfl
  | cons c rest ih =>
    obtain ⟨h2, h3⟩ := h c (List.mem_cons_self c rest)
    have hrest := ih (fun d hd => h d (List.mem_cons_of_mem c hd))
    by_cases hq : c = '"'
    · subst hq
      rw [show escapeChars ('"' :: rest) = '\\' :: '"' :: escapeChars rest from rfl,
        jsonBodyChars.eq_def]
      simp [unescapeChar, hrest]
    · rw [show escapeChars (c :: rest) =
          (if c = '"' then '\\' :: '"' :: escapeChars rest else c :: escapeChars rest)
          from rfl,
        if_neg hq, jsonBodyChars.eq_def]
      simp [hq, h2, Nat.not_lt.mpr h3, hrest]

lemma jsonStringBody_plain (s : String) (h : jsonPlain s) :
    jsonStringBody s = some s := by
  obtain ⟨l⟩ := s
  unfold jsonStringBody
  rw [jsonBodyChars_plain l h]
  rfl

lemma jsonStringBody_escape (s : String) (h : quoteSafe s) :
    jsonStringBody (escapeDoubleQuote s) = some s := by
  obtain ⟨l⟩ := s
  unfold jsonStringBody escapeDoubleQuote
  rw [show (String.mk (escapeChars l)).data = escapeChars l from rfl,
    jsonBodyChars_escape l h]
  rfl

lemma jsonPlain_append (a b : String) (ha : jsonPlain a) (hb : jsonPlain b) :
    jsonPlain (a ++ b) := by
  intro c hc
  rw [strData_append] at hc
  rcases List.mem_append.mp hc with h | h
  exacts [ha c h, hb c h]

lemma firstOverLimit_none_iff (names : List String) :
    firstOverLimit names = none ↔
      ∀ k, names.count k ≤ LIMIT_CLOUDWATCH_FILTER_COUNT := by
  unfold firstOverLimit
  rw [List.find?_eq_none]
  constructor
  · intro h k
    by_cases hk : k ∈ names
    · have := h k hk
      simpa using this
    · rw [List.count_eq_zero.mpr hk]
      exact Nat.zero_le _
  · intro h k _
    simp [Nat.not_lt.mpr (h k)]

lemma firstOverLimit_some (names : List String) (k : String)
    (h : firstOverLimit names = some k) :
    k ∈ names ∧ LIMIT_CLOUDWATCH_FILTER_COUNT < names.count k := by
  refine ⟨List.mem_of_find?_eq_some h, ?_⟩
  have := List.find?_some h
  simpa using this

lemma firstOverLimit_exists (names : List String)
    (h : ∃ k, LIMIT_CLOUDWATCH_FILTER_COUNT < names.count k) :
    ∃ k, firstOverLimit names = some k ∧
      LIMIT_CLOUDWATCH_FILTER_COUNT < names.count k := by
  obtain ⟨k0, hk0⟩ := h
  cases hf : firstOverLimit names with
  | some k => exact ⟨k, rfl, (firstOverLimit_some names k hf).2⟩
  | none =>
    exact absurd hk0 (Nat.not_lt.mpr ((firstOverLimit_none_iff names).mp hf k0))

lemma field_check_true (v : JSVal) (h : ¬ nonEmptyString v) :
    (!v.truthy || !v.isString) = true :=
  (field_check_fails_iff v).mpr h

lemma field_check_false (v : JSVal) (h : nonEmptyString v) :
    (!v.truthy || !v.isString) = false := by
  cases hb : (!v.truthy || !v.isString) with
  | false => rfl
  | true => exact absurd ((field_check_fails_iff v).mp hb) (not_not_intro h)

lemma validateSettings_some (s : Setting) :
    validateSettings (some s) =
      if nonEmptyString s.stage then
        if nonEmptyString s.logGroupName then
          if nonEmptyString s.filterPattern then .ok true
          else .error .filterPatternRequired
        else .error .logGroupNameRequired
      else .error .stageRequired := by
  by_cases h1 : nonEmptyString s.stage
  · by_cases h2 : nonEmptyString s.logGroupName
    · by_cases h3 : nonEmptyString s.filterPattern
      · simp [validateSettings, field_check_false _ h1, field_check_false _ h2,
          field_check_false _ h3, h1, h2, h3]
      · simp [validateSettings, field_check_false _ h1, field_check_false _ h2,
          field_check_true _ h3, h1, h2, h3]
    · simp [validateSettings, field_check_false _ h1, field_check_true _ h2, h1, h2]
  · simp [validateSettings, field_check_true _ h1, h1]

example : validateSettings none = .ok false := rfl
example : validateSettings (some ⟨.str "dev", .str "g", .str "p"⟩) = .ok true := rfl
example : validateSettings (some ⟨.str "dev", .str "", .str "p"⟩) =
    .error .logGroupNameRequired := rfl
example : validateSettings (some ⟨.num 3, .str "g", .str "p"⟩) =
    .error .stageRequired := rfl
example :
    preCheckResourceLimitExceeded
      [⟨"f", [⟨some ⟨.str "a", .str "g", .str "p"⟩⟩, ⟨some ⟨.str "b", .str "g", .str "p"⟩⟩,
              ⟨some ⟨.str "c", .str "g", .str "p"⟩⟩]⟩] =
    .error (.resourceLimitExceeded "g") := rfl
example :
    preCheckResourceLimitExceeded
      [⟨"f", [⟨some ⟨.str "a", .str "g", .str "p"⟩⟩, ⟨some ⟨.str "b", .str "g", .str "p"⟩⟩]⟩] =
    .ok () := rfl

/-- Claim C3: an absent setting returns false without error; otherwise stage,
logGroupName, filterPattern are checked in that order, the first field that is
not a non-empty string raising the error identifying it; the result is ok true
exactly when the setting is present and all three fields are non-empty
strings. -/
theorem validateSettings_characterization (os : Option Setting) :
    (os = none → validateSettings os = .ok false) ∧
    (∀ s, os = some s →
      (validateSettings os = .ok true ↔
        nonEmptyString s.stage ∧ nonEmptyString s.logGroupName ∧
          nonEmptyString s.filterPattern) ∧
      (¬ nonEmptyString s.stage → validateSettings os = .error .stageRequired) ∧
      (nonEmptyString s.stage → ¬ nonEmptyString s.logGroupName →
        validateSettings os = .error .logGroupNameRequired) ∧
      (nonEmptyString s.stage → nonEmptyString s.logGroupName →
        ¬ nonEmptyString s.filterPattern →
        validateSettings os = .error .filterPatternRequired)) := by
  refine ⟨fun h => by subst h; rfl, fun s h => ?_⟩
  subst h
  rw [validateSettings_some]
  by_cases h1 : nonEmptyString s.stage
  · by_cases h2 : nonEmptyString s.logGroupName
    · by_cases h3 : nonEmptyString s.filterPattern
      · simp [h1, h2, h3]
      · simp [h1, h2, h3]
    · simp [h1, h2]
  · simp [h1]

theorem validateSettings_characterization_witness :
    validateSettings (some ⟨.str "dev", .num 0, .str "p"⟩) =
      .error .logGroupNameRequired :=
  ((validateSettings_characterization (some ⟨.str "dev", .num 0, .str "p"⟩)).2
    ⟨.str "dev", .num 0, .str "p"⟩ rfl).2.2.1 (by decide) (by decide)

/-- Claim C2: the static pre-check succeeds exactly when every log-group key is
declared at most LIMIT_CLOUDWATCH_FILTER_COUNT = 2 times; any key declared
three or more times makes it fail with the resource-limit error naming an
offending key, and that failure aborts the whole run before any trigger is
processed. -/
theorem preCheckResourceLimitExceeded_threshold (functions : List FunctionDef) :
    (preCheckResourceLimitExceeded functions = .ok () ↔
      ∀ k, (declaredLogGroupKeys functions).count k ≤ LIMIT_CLOUDWATCH_FILTER_COUNT) ∧
    (∀ k, preCheckResourceLimitExceeded functions = .error (.resourceLimitExceeded k) →
      LIMIT_CLOUDWATCH_FILTER_COUNT < (declaredLogGroupKeys functions).count k) ∧
    ((∃ k, LIMIT_CLOUDWATCH_FILTER_COUNT < (declaredLogGroupKeys functions).count k) →
      ∃ k, LIMIT_CLOUDWATCH_FILTER_COUNT < (declaredLogGroupKeys functions).count k ∧
        preCheckResourceLimitExceeded functions = .error (.resourceLimitExceeded k)) ∧
    (∀ err stage rand, preCheckResourceLimitExceeded functions = .error err →
      compileSubscriptionFilterEvents stage rand functions = .error err) := by
  refine ⟨?_, ?_, ?_, ?_⟩
  · unfold preCheckResourceLimitExceeded
    cases hf : firstOverLimit (declaredLogGroupKeys functions) with
    | none => simpa using (firstOverLimit_none_iff _).mp hf
    | some k =>
      have hk := (firstOverLimit_some _ _ hf).2
      simp only []
      constructor
      · intro h; cases h
      · intro h
        exact absurd hk (Nat.not_lt.mpr (h k))
  · intro k h
    unfold preCheckResourceLimitExceeded at h
    cases hf : firstOverLimit (declaredLogGroupKeys functions) with
    | none => rw [hf] at h; cases h
    | some k2 =>
      rw [hf] at h
      have : k2 = k := by
        have := Except.error.inj h
        exact PluginError.resourceLimitExceeded.inj this
      subst this
      exact (firstOverLimit_some _ _ hf).2
  · intro h
    obtain ⟨k, hf, hk⟩ := firstOverLimit_exists _ h
    refine ⟨k, hk, ?_⟩
    unfold preCheckResourceLimitExceeded
    rw [hf]
  · intro err stage rand h
    unfold compileSubscriptionFilterEvents
    rw [h]

theorem preCheckResourceLimitExceeded_threshold_witness :
    LIMIT_CLOUDWATCH_FILTER_COUNT <
      (declaredLogGroupKeys
        [⟨"f", [⟨some ⟨.str "a", .str "g", .str "p"⟩⟩,
                ⟨some ⟨.str "b", .str "g", .str "p"⟩⟩,
                ⟨some ⟨.str "c", .str "g", .str "p"⟩⟩]⟩]).count "g" :=
  (preCheckResourceLimitExceeded_threshold
    [⟨"f", [⟨some ⟨.str "a", .str "g", .str "p"⟩⟩,
            ⟨some ⟨.str "b", .str "g", .str "p"⟩⟩,
            ⟨some ⟨.str "c", .str "g", .str "p"⟩⟩]⟩]).2.1 "g" rfl

/-- Claim C1 as stated is false on the code: the existing destination
identifier resolved from a deployed subscription filter whose destinationArn
is the empty string is present (not null) and differs from the guessed
identifier, yet the dynamic check resolves, because the source tests the
resolved value for JavaScript falsiness before comparing. -/
theorem checkResourceLimitExceeded_claim_cex :
    getSubscriptionFilterDestinationArn [⟨""⟩] = some "" ∧
    (some "" : Option String) ≠ none ∧
    (some "" : Option String) ≠ some "arn:aws:lambda:us-east-1:123:function:other" ∧
    checkResourceLimitExceeded "my-group" (some "")
      (some "arn:aws:lambda:us-east-1:123:function:other") = .ok () := by
  refine ⟨rfl, by simp, by simp, rfl⟩

/-- Claim C1 (amended): the dynamic pre-check resolves exactly when the
existing destination D is absent, or the empty string (JavaScript falsy), or
equal to the guessed destination E; when D is a non-empty string different
from E it rejects with the resource-limit error naming the log group. -/
theorem checkResourceLimitExceeded_amended (logGroupName : String)
    (d e : Option String) :
    (checkResourceLimitExceeded logGroupName d e = .ok () ↔
      (d = none ∨ d = some "" ∨ d = e)) ∧
    (∀ s, d = some s → s ≠ "" → d ≠ e →
      checkResourceLimitExceeded logGroupName d e =
        .error (.resourceLimitExceeded logGroupName)) := by
  constructor
  · cases d with
    | none => simp [checkResourceLimitExceeded]
    | some s =>
      by_cases hs : s = ""
      · subst hs
        simp [checkResourceLimitExceeded]
      · by_cases he : some s = e
        · simp [checkResourceLimitExceeded, hs, he]
        · simp [checkResourceLimitExceeded, hs, he]
  · rintro s rfl hs hne
    simp [checkResourceLimitExceeded, hs, hne]

theorem checkResourceLimitExceeded_amended_witness :
    checkResourceLimitExceeded "my-group" (some "arn:A") (some "arn:B") =
      .error (.resourceLimitExceeded "my-group") :=
  (checkResourceLimitExceeded_amended "my-group" (some "arn:A") (some "arn:B")).2
    "arn:A" rfl (by decide) (by decide)

/-- Claim C4: the guessed destination is the previous deployment output value
recorded under the key logGroupName ++ lambdaFunctionName; it is null when
that output is absent and when the lookup fails with a ValidationError whose
message includes "does not exist"; any other lookup failure propagates. -/
theorem guessSubscriptionFilterDestinationArn_characterization (lg fn : String)
    (res : Except AwsError (List Stack)) :
    (∀ stackList, res = .ok stackList →
      (∀ o, (stackList.flatMap Stack.Outputs).find?
          (fun o2 => o2.OutputKey == lg ++ fn) = some o →
        guessSubscriptionFilterDestinationArn lg fn res = .ok (some o.OutputValue)) ∧
      ((stackList.flatMap Stack.Outputs).find?
          (fun o2 => o2.OutputKey == lg ++ fn) = none →
        guessSubscriptionFilterDestinationArn lg fn res = .ok none)) ∧
    (∀ err, res = .error err →
      ((err.code = "ValidationError" ∧ strIncludes err.message "does not exist" = true) →
        guessSubscriptionFilterDestinationArn lg fn res = .ok none) ∧
      (¬ (err.code = "ValidationError" ∧
          strIncludes err.message "does not exist" = true) →
        guessSubscriptionFilterDestinationArn lg fn res = .error err)) := by
  constructor
  · rintro stackList rfl
    constructor
    · intro o hfind
      simp [guessSubscriptionFilterDestinationArn, hfind]
    · intro hfind
      simp [guessSubscriptionFilterDestinationArn, hfind]
  · rintro err rfl
    constructor
    · rintro ⟨hcode, hmsg⟩
      simp [guessSubscriptionFilterDestinationArn, hcode, hmsg]
    · intro hn
      have hb : (err.code == "ValidationError" &&
          strIncludes err.message "does not exist") = false := by
        cases hb2 : (err.code == "ValidationError" &&
            strIncludes err.message "does not exist") with
        | false => rfl
        | true =>
          rw [Bool.and_eq_true, beq_iff_eq] at hb2
          exact absurd hb2 hn
      simp [guessSubscriptionFilterDestinationArn, hb]

theorem guessSubscriptionFilterDestinationArn_witness :
    guessSubscriptionFilterDestinationArn "g" "stack-f"
      (.error ⟨"ValidationError", "Stack stack does not exist"⟩) = .ok none :=
  ((guessSubscriptionFilterDestinationArn_characterization "g" "stack-f"
      (.error ⟨"ValidationError", "Stack stack does not exist"⟩)).2
    ⟨"ValidationError", "Stack stack does not exist"⟩ rfl).1 ⟨rfl, by decide⟩

/-- Claim C5 describes the intended pagination, but the code is wrong: the
source returns the recursive pagination promise into its then-chain without
connecting it to the outer resolve, so only rejections propagate (through the
catch handler) and a fulfillment of the recursion is dropped.  When the exact
match sits on any page after the first, the lookup promise therefore never
settles instead of resolving the arn.  Evaluated at a two-page listing whose
exact match is on the second page: the first page holds only a prefix
candidate, the second page holds the exact match whose arn the claim says is
returned, and the embedded lookup is pending, not resolved. -/
theorem getLogGroupArn_second_page_pending :
    (LogGroupPage.mk [⟨"group-a-long", "arn:1"⟩]).logGroups.find?
        (fun g => g.logGroupName == "group-a") = none ∧
    (LogGroupPage.mk [⟨"group-a", "arn:2"⟩]).logGroups.find?
        (fun g => g.logGroupName == "group-a") =
      some ⟨"group-a", "arn:2"⟩ ∧
    getLogGroupArn "group-a"
        [LogGroupPage.mk [⟨"group-a-long", "arn:1"⟩],
         LogGroupPage.mk [⟨"group-a", "arn:2"⟩]] = some .pending :=
  ⟨rfl, rfl, rfl⟩

instance (s : String) : Decidable (jsonPlain s) := by
  unfold jsonPlain
  infer_instance

instance (s : String) : Decidable (quoteSafe s) := by
  unfold quoteSafe
  infer_instance

lemma compilePermission_plain (nm : Naming) (region : String)
    (setting : CompiledSetting) (fn arn : String) (index : Nat)
    (h1 : jsonPlain (nm.getLambdaLogicalId fn)) (h2 : jsonPlain region)
    (h3 : jsonPlain arn) :
    compilePermission nm region setting fn arn index =
      some (getLambdaPermissionLogicalId nm fn setting.logGroupName index,
        ⟨⟨(nm.getLambdaLogicalId fn, "Arn"), "lambda:InvokeFunction",
          "logs." ++ region ++ ".amazonaws.com", arn⟩⟩) := by
  have hpr : jsonPlain ("logs." ++ region ++ ".amazonaws.com") :=
    jsonPlain_append _ _ (jsonPlain_append _ _ (by decide) h2) (by decide)
  simp only [compilePermission]
  rw [jsonStringBody_plain _ h1, jsonStringBody_plain _ hpr, jsonStringBody_plain _ h3]

lemma compileSubscriptionFilter_plain (nm : Naming) (setting : CompiledSetting)
    (fn : String) (index : Nat)
    (h1 : jsonPlain (nm.getLambdaLogicalId fn))
    (h2 : jsonPlain (getLambdaPermissionLogicalId nm fn setting.logGroupName index))
    (h3 : jsonPlain setting.stage) (h4 : jsonPlain setting.logGroupName)
    (h5 : quoteSafe setting.filterPattern) :
    compileSubscriptionFilter nm setting fn index =
      some (getSubscriptionFilterLogicalId nm fn setting.logGroupName index,
        ⟨⟨(nm.getLambdaLogicalId fn, "Arn"), setting.filterPattern,
          getLambdaPermissionLogicalId nm fn setting.logGroupName index ++ "-" ++
            setting.stage,
          setting.logGroupName⟩,
          getLambdaPermissionLogicalId nm fn setting.logGroupName index⟩) := by
  have hfn : jsonPlain (getLambdaPermissionLogicalId nm fn setting.logGroupName index ++
      "-" ++ setting.stage) :=
    jsonPlain_append _ _ (jsonPlain_append _ _ h2 (by decide)) h3
  simp only [compileSubscriptionFilter]
  rw [jsonStringBody_plain _ h1, jsonStringBody_escape _ h5,
    jsonStringBody_plain _ hfn, jsonStringBody_plain _ h4, jsonStringBody_plain _ h2]

lemma mergeResource_not_mem (tpl : Template) (k : String) (f : Fragment)
    (h : tpl.any (fun p => p.1 == k) = false) :
    mergeResource tpl k f = tpl ++ [(k, f)] := by
  unfold mergeResource
  rw [h]
  rfl

lemma merge_four_length (k1 k2 k3 k4 : String) (f1 f2 f3 f4 : Fragment)
    (h12 : k1 ≠ k2) (h13 : k1 ≠ k3) (h14 : k1 ≠ k4)
    (h23 : k2 ≠ k3) (h24 : k2 ≠ k4) (h34 : k3 ≠ k4) :
    (mergeResource (mergeResource (mergeResource (mergeResource [] k1 f1) k2 f2)
      k3 f3) k4 f4).length = 4 := by
  have e1 : mergeResource [] k1 f1 = [(k1, f1)] := by
    rw [mergeResource_not_mem]
    · rfl
    · rfl
  have e2 : mergeResource [(k1, f1)] k2 f2 = [(k1, f1), (k2, f2)] := by
    rw [mergeResource_not_mem]
    · rfl
    · simp only [List.any_cons, List.any_nil, Bool.or_false]
      exact beq_eq_false_iff_ne.mpr h12
  have e3 : mergeResource [(k1, f1), (k2, f2)] k3 f3 =
      [(k1, f1), (k2, f2), (k3, f3)] := by
    rw [mergeResource_not_mem]
    · rfl
    · simp only [List.any_cons, List.any_nil, Bool.or_false]
      rw [beq_eq_false_iff_ne.mpr h13, beq_eq_false_iff_ne.mpr h23]
      rfl
  have e4 : mergeResource [(k1, f1), (k2, f2), (k3, f3)] k4 f4 =
      [(k1, f1), (k2, f2), (k3, f3), (k4, f4)] := by
    rw [mergeResource_not_mem]
    · rfl
    · simp only [List.any_cons, List.any_nil, Bool.or_false]
      rw [beq_eq_false_iff_ne.mpr h14, beq_eq_false_iff_ne.mpr h24,
        beq_eq_false_iff_ne.mpr h34]
      rfl
  rw [e1, e2, e3, e4]
  rfl

lemma jsonPlain_permId (nm : Naming) (fn lg : String) (index : Nat)
    (hNF : jsonPlain (nm.getNormalizedFunctionName fn))
    (hNL : jsonPlain (nm.normalizeNameToAlphaNumericOnly lg))
    (hIdx : jsonPlain (toString index)) :
    jsonPlain (getLambdaPermissionLogicalId nm fn lg index) := by
  unfold getLambdaPermissionLogicalId
  exact jsonPlain_append _ _
    (jsonPlain_append _ _ (jsonPlain_append _ _ hNF (by decide)) hNL) hIdx

/-- Claim C6: for two triggers of one function on log groups "A" (occurrence 0)
and "B" (occurrence 1), both fragment builders succeed, the four generated
logical identifiers are pairwise distinct whatever the host normalization
returns, and merging the four fragments into an empty template yields exactly
four entries. -/
theorem logicalIds_distinct_and_merge (nm : Naming) (region fn arnA arnB : String)
    (stageA stageB fpA fpB : String)
    (hlid : jsonPlain (nm.getLambdaLogicalId fn)) (hreg : jsonPlain region)
    (harnA : jsonPlain arnA) (harnB : jsonPlain arnB)
    (hNF : jsonPlain (nm.getNormalizedFunctionName fn))
    (hNA : jsonPlain (nm.normalizeNameToAlphaNumericOnly "A"))
    (hNB : jsonPlain (nm.normalizeNameToAlphaNumericOnly "B"))
    (hstA : jsonPlain stageA) (hstB : jsonPlain stageB)
    (hfpA : quoteSafe fpA) (hfpB : quoteSafe fpB) :
    ∃ pA fA pB fB,
      compilePermission nm region ⟨stageA, "A", fpA⟩ fn arnA 0 =
        some (getLambdaPermissionLogicalId nm fn "A" 0, pA) ∧
      compileSubscriptionFilter nm ⟨stageA, "A", fpA⟩ fn 0 =
        some (getSubscriptionFilterLogicalId nm fn "A" 0, fA) ∧
      compilePermission nm region ⟨stageB, "B", fpB⟩ fn arnB 1 =
        some (getLambdaPermissionLogicalId nm fn "B" 1, pB) ∧
      compileSubscriptionFilter nm ⟨stageB, "B", fpB⟩ fn 1 =
        some (getSubscriptionFilterLogicalId nm fn "B" 1, fB) ∧
      [getLambdaPermissionLogicalId nm fn "A" 0,
       getSubscriptionFilterLogicalId nm fn "A" 0,
       getLambdaPermissionLogicalId nm fn "B" 1,
       getSubscriptionFilterLogicalId nm fn "B" 1].Nodup ∧
      (mergeResource (mergeResource (mergeResource (mergeResource []
          (getLambdaPermissionLogicalId nm fn "A" 0) (.permission pA))
          (getSubscriptionFilterLogicalId nm fn "A" 0) (.subscriptionFilter fA))
          (getLambdaPermissionLogicalId nm fn "B" 1) (.permission pB))
          (getSubscriptionFilterLogicalId nm fn "B" 1)
          (.subscriptionFilter fB)).length = 4 := by
  have hpA : jsonPlain (getLambdaPermissionLogicalId nm fn "A" 0) :=
    jsonPlain_permId nm fn "A" 0 hNF hNA (by decide)
  have hpB : jsonPlain (getLambdaPermissionLogicalId nm fn "B" 1) :=
    jsonPlain_permId nm fn "B" 1 hNF hNB (by decide)
  have n12 : getLambdaPermissionLogicalId nm fn "A" 0 ≠
      getSubscriptionFilterLogicalId nm fn "A" 0 :=
    Ne.symm (subId_ne_permId nm fn "A" "A" 0 0)
  have n13 : getLambdaPermissionLogicalId nm fn "A" 0 ≠
      getLambdaPermissionLogicalId nm fn "B" 1 := by
    unfold getLambdaPermissionLogicalId
    exact id01_ne _ _ _ _ _ _
  have n14 : getLambdaPermissionLogicalId nm fn "A" 0 ≠
      getSubscriptionFilterLogicalId nm fn "B" 1 := by
    unfold getLambdaPermissionLogicalId getSubscriptionFilterLogicalId
    exact id01_ne _ _ _ _ _ _
  have n23 : getSubscriptionFilterLogicalId nm fn "A" 0 ≠
      getLambdaPermissionLogicalId nm fn "B" 1 := by
    unfold getLambdaPermissionLogicalId getSubscriptionFilterLogicalId
    exact id01_ne _ _ _ _ _ _
  have n24 : getSubscriptionFilterLogicalId nm fn "A" 0 ≠
      getSubscriptionFilterLogicalId nm fn "B" 1 := by
    unfold getSubscriptionFilterLogicalId
    exact id01_ne _ _ _ _ _ _
  have n34 : getLambdaPermissionLogicalId nm fn "B" 1 ≠
      getSubscriptionFilterLogicalId nm fn "B" 1 :=
    Ne.symm (subId_ne_permId nm fn "B" "B" 1 1)
  have hnodup :
      [getLambdaPermissionLogicalId nm fn "A" 0,
       getSubscriptionFilterLogicalId nm fn "A" 0,
       getLambdaPermissionLogicalId nm fn "B" 1,
       getSubscriptionFilterLogicalId nm fn "B" 1].Nodup := by
    simp only [List.nodup_cons, List.mem_cons, List.not_mem_nil, or_false,
      List.nodup_nil, and_true, not_or]
    exact ⟨⟨n12, n13, n14⟩, ⟨n23, n24⟩, ⟨n34, not_false⟩⟩
  exact ⟨_, _, _, _,
    compilePermission_plain nm region ⟨stageA, "A", fpA⟩ fn arnA 0 hlid hreg harnA,
    compileSubscriptionFilter_plain nm ⟨stageA, "A", fpA⟩ fn 0 hlid hpA hstA
      (show jsonPlain "A" from by decide) hfpA,
    compilePermission_plain nm region ⟨stageB, "B", fpB⟩ fn arnB 1 hlid hreg harnB,
    compileSubscriptionFilter_plain nm ⟨stageB, "B", fpB⟩ fn 1 hlid hpB hstB
      (show jsonPlain "B" from by decide) hfpB,
    hnodup,
    merge_four_length _ _ _ _ _ _ _ _ n12 n13 n14 n23 n24 n34⟩

/-- A concrete naming record standing in for the serverless naming service in
the closed witness statements below. -/
def sampleNaming : Naming :=
  { getNormalizedFunctionName := fun s => s.capitalize,
    normalizeNameToAlphaNumericOnly := fun s => s.capitalize,
    getLambdaLogicalId := fun s => s.capitalize ++ "LambdaFunction",
    getStackName := "service-dev" }

theorem logicalIds_distinct_and_merge_witness :
    ∃ pA fA pB fB,
      compilePermission sampleNaming "us-east-1" ⟨"dev-k3j2p", "A", "p1"⟩ "hello"
          "arn:aws:logs:a" 0 =
        some (getLambdaPermissionLogicalId sampleNaming "hello" "A" 0, pA) ∧
      compileSubscriptionFilter sampleNaming ⟨"dev-k3j2p", "A", "p1"⟩ "hello" 0 =
        some (getSubscriptionFilterLogicalId sampleNaming "hello" "A" 0, fA) ∧
      compilePermission sampleNaming "us-east-1" ⟨"dev-m1qqz", "B", "p2"⟩ "hello"
          "arn:aws:logs:b" 1 =
        some (getLambdaPermissionLogicalId sampleNaming "hello" "B" 1, pB) ∧
      compileSubscriptionFilter sampleNaming ⟨"dev-m1qqz", "B", "p2"⟩ "hello" 1 =
        some (getSubscriptionFilterLogicalId sampleNaming "hello" "B" 1, fB) ∧
      [getLambdaPermissionLogicalId sampleNaming "hello" "A" 0,
       getSubscriptionFilterLogicalId sampleNaming "hello" "A" 0,
       getLambdaPermissionLogicalId sampleNaming "hello" "B" 1,
       getSubscriptionFilterLogicalId sampleNaming "hello" "B" 1].Nodup ∧
      (mergeResource (mergeResource (mergeResource (mergeResource []
          (getLambdaPermissionLogicalId sampleNaming "hello" "A" 0) (.permission pA))
          (getSubscriptionFilterLogicalId sampleNaming "hello" "A" 0)
          (.subscriptionFilter fA))
          (getLambdaPermissionLogicalId sampleNaming "hello" "B" 1) (.permission pB))
          (getSubscriptionFilterLogicalId sampleNaming "hello" "B" 1)
          (.subscriptionFilter fB)).length = 4 :=
  logicalIds_distinct_and_merge sampleNaming "us-east-1" "hello"
    "arn:aws:logs:a" "arn:aws:logs:b" "dev-k3j2p" "dev-m1qqz" "p1" "p2"
    (by decide) (by decide) (by decide) (by decide) (by decide) (by decide)
    (by decide) (by decide) (by decide) (by decide) (by decide)

/-- Claim C7: when the dynamic check passes and the log-group arn resolves,
doCompile merges the permission fragment into the template first and then the
subscription-filter fragment, and the subscription filter declared dependency
equals the permission logical identifier generated for the same function name,
log group, and occurrence index. -/
theorem doCompile_dependency_and_order (nm : Naming) (region : String)
    (setting : CompiledSetting) (fn : String) (index : Nat)
    (d e : Option String) (pages : List LogGroupPage) (tpl : Template) (arn : String)
    (hcheck : checkResourceLimitExceeded setting.logGroupName d e = .ok ())
    (harn : getLogGroupArn setting.logGroupName pages = some (.ok arn))
    (hlid : jsonPlain (nm.getLambdaLogicalId fn)) (hreg : jsonPlain region)
    (harnp : jsonPlain arn)
    (hperm : jsonPlain (getLambdaPermissionLogicalId nm fn setting.logGroupName index))
    (hst : jsonPlain setting.stage) (hlg : jsonPlain setting.logGroupName)
    (hfp : quoteSafe setting.filterPattern) :
    ∃ pFrag sFrag,
      doCompile nm region setting fn index d e pages tpl =
        some (.ok (mergeResource
          (mergeResource tpl
            (getLambdaPermissionLogicalId nm fn setting.logGroupName index)
            (.permission pFrag))
          (getSubscriptionFilterLogicalId nm fn setting.logGroupName index)
          (.subscriptionFilter sFrag))) ∧
      sFrag.DependsOn = getLambdaPermissionLogicalId nm fn setting.logGroupName index := by
  have hp := compilePermission_plain nm region setting fn arn index hlid hreg harnp
  have hs := compileSubscriptionFilter_plain nm setting fn index hlid hperm hst hlg hfp
  refine ⟨⟨⟨(nm.getLambdaLogicalId fn, "Arn"), "lambda:InvokeFunction",
      "logs." ++ region ++ ".amazonaws.com", arn⟩⟩,
    ⟨⟨(nm.getLambdaLogicalId fn, "Arn"), setting.filterPattern,
      getLambdaPermissionLogicalId nm fn setting.logGroupName index ++ "-" ++
        setting.stage,
      setting.logGroupName⟩,
      getLambdaPermissionLogicalId nm fn setting.logGroupName index⟩, ?_, rfl⟩
  unfold doCompile
  rw [hcheck, harn]
  simp only [hp, hs]

theorem doCompile_dependency_and_order_witness :
    ∃ pFrag sFrag,
      doCompile sampleNaming "us-east-1" ⟨"dev-a1b2c", "g", "pat"⟩ "hello" 0
          none none [LogGroupPage.mk [⟨"g", "arn:aws:logs:g"⟩]] [] =
        some (.ok (mergeResource
          (mergeResource []
            (getLambdaPermissionLogicalId sampleNaming "hello" "g" 0)
            (.permission pFrag))
          (getSubscriptionFilterLogicalId sampleNaming "hello" "g" 0)
          (.subscriptionFilter sFrag))) ∧
      sFrag.DependsOn = getLambdaPermissionLogicalId sampleNaming "hello" "g" 0 :=
  doCompile_dependency_and_order sampleNaming "us-east-1" ⟨"dev-a1b2c", "g", "pat"⟩
    "hello" 0 none none [LogGroupPage.mk [⟨"g", "arn:aws:logs:g"⟩]] []
    "arn:aws:logs:g" rfl rfl (by decide) (by decide) (by decide) (by decide)
    (by decide) (by decide) (by decide)

lemma escapeChars_cons_quote (rest : List Char) :
    escapeChars ('"' :: rest) = '\\' :: '"' :: escapeChars rest := rfl

lemma escapeChars_cons_ne (c : Char) (rest : List Char) (hq : c ≠ '"') :
    escapeChars (c :: rest) = c :: escapeChars rest := by
  rw [show escapeChars (c :: rest) =
      (if c = '"' then '\\' :: '"' :: escapeChars rest else c :: escapeChars rest)
      from rfl, if_neg hq]

lemma escapeChars_quote_preceded (l : List Char) (i : Nat)
    (h : (escapeChars l)[i]? = some '"') :
    ∃ j, i = j + 1 ∧ (escapeChars l)[j]? = some '\\' := by
  induction l generalizing i with
  | nil => simp [escapeChars] at h
  | cons c rest ih =>
    by_cases hq : c = '"'
    · subst hq
      rw [escapeChars_cons_quote] at h
      cases i with
      | zero => simp at h
      | succ n =>
        cases n with
        | zero => exact ⟨0, rfl, rfl⟩
        | succ m =>
          simp only [List.getElem?_cons_succ] at h
          obtain ⟨j, hj, hj2⟩ := ih m h
          refine ⟨j + 2, by omega, ?_⟩
          rw [escapeChars_cons_quote]
          simpa using hj2
    · rw [escapeChars_cons_ne c rest hq] at h
      cases i with
      | zero =>
        simp only [List.getElem?_cons_zero, Option.some.injEq] at h
        exact absurd h hq
      | succ n =>
        simp only [List.getElem?_cons_succ] at h
        obtain ⟨j, hj, hj2⟩ := ih n h
        refine ⟨j + 1, by omega, ?_⟩
        rw [escapeChars_cons_ne c rest hq]
        simpa using hj2

/-- Claim C8 as stated is false: for the one-character filter pattern
consisting of a single backslash (which quote-escaping leaves unchanged), the
interpolated resource text is not valid JSON, so compileSubscriptionFilter
yields no fragment (the source JSON.parse throws and the run fails). -/
theorem compileSubscriptionFilter_backslash_cex :
    escapeDoubleQuote "\\" = "\\" ∧
    compileSubscriptionFilter sampleNaming ⟨"dev-a1b2c", "g", "\\"⟩ "hello" 0 = none := by
  exact ⟨rfl, rfl⟩

/-- Claim C8 (amended): in the emitted text every double quote of the escaped
filter pattern is immediately preceded by a backslash, for every pattern; and
for every pattern free of backslashes and control characters (with the other
interpolated chunks plain) the interpolated resource text parses into a
fragment whose FilterPattern round-trips to the declared pattern. -/
theorem compileSubscriptionFilter_escaping (nm : Naming) (setting : CompiledSetting)
    (fn : String) (index : Nat)
    (h1 : jsonPlain (nm.getLambdaLogicalId fn))
    (h2 : jsonPlain (getLambdaPermissionLogicalId nm fn setting.logGroupName index))
    (h3 : jsonPlain setting.stage) (h4 : jsonPlain setting.logGroupName) :
    (∀ i, (escapeDoubleQuote setting.filterPattern).data[i]? = some '"' →
      ∃ j, i = j + 1 ∧ (escapeDoubleQuote setting.filterPattern).data[j]? = some '\\') ∧
    (quoteSafe setting.filterPattern →
      ∃ frag, compileSubscriptionFilter nm setting fn index =
        some (getSubscriptionFilterLogicalId nm fn setting.logGroupName index, frag) ∧
        frag.Properties.FilterPattern = setting.filterPattern) := by
  constructor
  · intro i h
    exact escapeChars_quote_preceded setting.filterPattern.data i h
  · intro h5
    exact ⟨_, compileSubscriptionFilter_plain nm setting fn index h1 h2 h3 h4 h5, rfl⟩

theorem compileSubscriptionFilter_escaping_witness :
    ∃ frag,
      compileSubscriptionFilter sampleNaming ⟨"dev-a1b2c", "g", "level = \"error\""⟩
          "hello" 0 =
        some (getSubscriptionFilterLogicalId sampleNaming "hello" "g" 0, frag) ∧
      frag.Properties.FilterPattern = "level = \"error\"" :=
  (compileSubscriptionFilter_escaping sampleNaming ⟨"dev-a1b2c", "g", "level = \"error\""⟩
    "hello" 0 (by decide) (by decide) (by decide) (by decide)).2 (by decide)

lemma processEventsFrom_sound (stage : String) (rand : String → Nat → String)
    (fnName : String) (events : List Event) (i : Nat) (calls : List CompileCall)
    (hok : processEventsFrom stage rand fnName i events = .ok calls) :
    ∀ g cs j, (g, cs, j) ∈ calls →
      g = fnName ∧ i ≤ j ∧
      ∃ e s, events[j - i]? = some e ∧ e.subscriptionFilter = some s ∧
        jsStrEq s.stage stage = true ∧
        cs = toCompiled s (stage ++ "-" ++ rand fnName j) := by
  induction events generalizing i calls with
  | nil =>
    rw [processEventsFrom.eq_def] at hok
    simp only [] at hok
    rw [← Except.ok.inj hok]
    intro g cs j hmem
    simp at hmem
  | cons e0 rest ih =>
    rw [processEventsFrom.eq_def] at hok
    simp only [] at hok
    cases hsf : e0.subscriptionFilter with
    | none =>
      rw [hsf] at hok
      simp only [] at hok
      intro g cs j hmem
      obtain ⟨hg, hij, e2, s2, hidx, hsf2, hstg, hcs⟩ :=
        ih (i + 1) calls hok g cs j hmem
      refine ⟨hg, by omega, e2, s2, ?_, hsf2, hstg, hcs⟩
      have hsub : j - i = (j - (i + 1)) + 1 := by omega
      rw [hsub, List.getElem?_cons_succ]
      exact hidx
    | some s =>
      rw [hsf] at hok
      simp only [] at hok
      cases hv : validateSettings (some s) with
      | error err =>
        rw [hv] at hok
        cases hok
      | ok b =>
        rw [hv] at hok
        simp only [] at hok
        by_cases hstage : jsStrEq s.stage stage = true
        · rw [if_pos hstage] at hok
          cases hrec : processEventsFrom stage rand fnName (i + 1) rest with
          | error err =>
            rw [hrec] at hok
            cases hok
          | ok calls2 =>
            rw [hrec] at hok
            rw [← Except.ok.inj hok]
            intro g cs j hmem
            rcases List.mem_cons.mp hmem with hhead | htail
            · have hg : g = fnName := congrArg Prod.fst hhead
              have hj : j = i := congrArg (fun x => x.2.2) hhead
              have hcs : cs = toCompiled s (stage ++ "-" ++ rand fnName i) :=
                congrArg (fun x => x.2.1) hhead
              subst hg
              subst hj
              subst hcs
              refine ⟨rfl, Nat.le_refl _, e0, s, ?_, hsf, hstage, rfl⟩
              rw [Nat.sub_self]
              exact List.getElem?_cons_zero
            · obtain ⟨hg, hij, e2, s2, hidx, hsf2, hstg, hcs⟩ :=
                ih (i + 1) calls2 hrec g cs j htail
              refine ⟨hg, by omega, e2, s2, ?_, hsf2, hstg, hcs⟩
              have hsub : j - i = (j - (i + 1)) + 1 := by omega
              rw [hsub, List.getElem?_cons_succ]
              exact hidx
        · rw [if_neg hstage] at hok
          intro g cs j hmem
          obtain ⟨hg, hij, e2, s2, hidx, hsf2, hstg, hcs⟩ :=
            ih (i + 1) calls hok g cs j hmem
          refine ⟨hg, by omega, e2, s2, ?_, hsf2, hstg, hcs⟩
          have hsub : j - i = (j - (i + 1)) + 1 := by omega
          rw [hsub, List.getElem?_cons_succ]
          exact hidx

lemma processEventsFrom_complete (stage : String) (rand : String → Nat → String)
    (fnName : String) (events : List Event) (i : Nat) (calls : List CompileCall)
    (k : Nat) (e : Event) (s : Setting)
    (hok : processEventsFrom stage rand fnName i events = .ok calls)
    (he : events[k]? = some e) (hs : e.subscriptionFilter = some s)
    (hstage : jsStrEq s.stage stage = true) :
    (fnName, toCompiled s (stage ++ "-" ++ rand fnName (i + k)), i + k) ∈ calls := by
  induction events generalizing i k calls with
  | nil => simp at he
  | cons e0 rest ih =>
    rw [processEventsFrom.eq_def] at hok
    simp only [] at hok
    cases k with
    | zero =>
      simp only [List.getElem?_cons_zero, Option.some.injEq] at he
      subst he
      rw [hs] at hok
      simp only [] at hok
      cases hv : validateSettings (some s) with
      | error err =>
        rw [hv] at hok
        cases hok
      | ok b =>
        rw [hv] at hok
        simp only [] at hok
        rw [if_pos hstage] at hok
        cases hrec : processEventsFrom stage rand fnName (i + 1) rest with
        | error err =>
          rw [hrec] at hok
          cases hok
        | ok calls2 =>
          rw [hrec] at hok
          rw [← Except.ok.inj hok]
          rw [Nat.add_zero]
          exact List.mem_cons_self _ _
    | succ k2 =>
      simp only [List.getElem?_cons_succ] at he
      have hshift : i + (k2 + 1) = (i + 1) + k2 := by omega
      cases hsf0 : e0.subscriptionFilter with
      | none =>
        rw [hsf0] at hok
        simp only [] at hok
        rw [hshift]
        exact ih (i + 1) calls k2 hok he
      | some s0 =>
        rw [hsf0] at hok
        simp only [] at hok
        cases hv : validateSettings (some s0) with
        | error err =>
          rw [hv] at hok
          cases hok
        | ok b =>
          rw [hv] at hok
          simp only [] at hok
          by_cases hstage0 : jsStrEq s0.stage stage = true
          · rw [if_pos hstage0] at hok
            cases hrec : processEventsFrom stage rand fnName (i + 1) rest with
            | error err =>
              rw [hrec] at hok
              cases hok
            | ok calls2 =>
              rw [hrec] at hok
              rw [← Except.ok.inj hok]
              rw [hshift]
              exact List.mem_cons_of_mem _ (ih (i + 1) calls2 k2 hrec he)
          · rw [if_neg hstage0] at hok
            rw [hshift]
            exact ih (i + 1) calls k2 hok he

lemma processFunctions_sound (stage : String) (rand : String → Nat → String)
    (functions : List FunctionDef) (calls : List CompileCall)
    (hok : processFunctions stage rand functions = .ok calls) :
    ∀ x ∈ calls, ∃ f ∈ functions, ∃ ecalls,
      processEventsFrom stage rand f.name 0 f.events = .ok ecalls ∧ x ∈ ecalls := by
  induction functions generalizing calls with
  | nil =>
    rw [processFunctions.eq_def] at hok
    simp only [] at hok
    rw [← Except.ok.inj hok]
    intro x hx
    simp at hx
  | cons f0 rest ih =>
    rw [processFunctions.eq_def] at hok
    simp only [] at hok
    cases h1 : processEventsFrom stage rand f0.name 0 f0.events with
    | error err =>
      rw [h1] at hok
      cases hok
    | ok ecalls0 =>
      rw [h1] at hok
      cases h2 : processFunctions stage rand rest with
      | error err =>
        rw [h2] at hok
        cases hok
      | ok more =>
        rw [h2] at hok
        rw [← Except.ok.inj hok]
        intro x hx
        rcases List.mem_append.mp hx with hx1 | hx2
        · exact ⟨f0, List.mem_cons_self _ _, ecalls0, h1, hx1⟩
        · obtain ⟨f, hf, ecalls, h3, h4⟩ := ih more h2 x hx2
          exact ⟨f, List.mem_cons_of_mem _ hf, ecalls, h3, h4⟩

lemma processFunctions_complete (stage : String) (rand : String → Nat → String)
    (functions : List FunctionDef) (calls : List CompileCall) (f : FunctionDef)
    (hok : processFunctions stage rand functions = .ok calls) (hf : f ∈ functions) :
    ∃ ecalls, processEventsFrom stage rand f.name 0 f.events = .ok ecalls ∧
      ∀ x ∈ ecalls, x ∈ calls := by
  induction functions generalizing calls with
  | nil => simp at hf
  | cons f0 rest ih =>
    rw [processFunctions.eq_def] at hok
    simp only [] at hok
    cases h1 : processEventsFrom stage rand f0.name 0 f0.events with
    | error err =>
      rw [h1] at hok
      cases hok
    | ok ecalls0 =>
      rw [h1] at hok
      cases h2 : processFunctions stage rand rest with
      | error err =>
        rw [h2] at hok
        cases hok
      | ok more =>
        rw [h2] at hok
        rw [← Except.ok.inj hok]
        rcases List.mem_cons.mp hf with rfl | hf2
        · exact ⟨ecalls0, h1, fun x hx => List.mem_append_left _ hx⟩
        · obtain ⟨ecalls, h3, h4⟩ := ih more h2 hf2
          exact ⟨ecalls, h3, fun x hx => List.mem_append_right _ (h4 x hx)⟩

lemma name_inj_of_nodup (functions : List FunctionDef)
    (hnodup : (functions.map FunctionDef.name).Nodup)
    (f g : FunctionDef) (hf : f ∈ functions) (hg : g ∈ functions)
    (h : f.name = g.name) : f = g := by
  induction functions with
  | nil => simp at hf
  | cons x rest ih =>
    simp only [List.map_cons, List.nodup_cons] at hnodup
    rcases List.mem_cons.mp hf with rfl | hf2
    · rcases List.mem_cons.mp hg with rfl | hg2
      · rfl
      · have hmem : g.name ∈ rest.map FunctionDef.name :=
          List.mem_map_of_mem FunctionDef.name hg2
        rw [← h] at hmem
        exact absurd hmem hnodup.1
    · rcases List.mem_cons.mp hg with rfl | hg2
      · have hmem : f.name ∈ rest.map FunctionDef.name :=
          List.mem_map_of_mem FunctionDef.name hf2
        rw [h] at hmem
        exact absurd hmem hnodup.1
      · exact ih hnodup.2 hf2 hg2

/-- Claim C9: in a successful run, a validated trigger whose declared stage
differs from the current deployment stage contributes no doCompile call (no
fragments are built and no remote calls issued for it — the Skipped outcome),
while a trigger whose declared stage equals the current stage contributes its
call, at its occurrence index and with its stage rewritten, to the same run. -/
theorem compileEvents_stage_selection (stage : String) (rand : String → Nat → String)
    (functions : List FunctionDef) (calls : List CompileCall)
    (hok : compileSubscriptionFilterEvents stage rand functions = .ok calls)
    (hnodup : (functions.map FunctionDef.name).Nodup)
    (f : FunctionDef) (hf : f ∈ functions) (i : Nat) (e : Event)
    (he : f.events[i]? = some e) (s : Setting) (hs : e.subscriptionFilter = some s) :
    (jsStrEq s.stage stage = false → ∀ cs, (f.name, cs, i) ∉ calls) ∧
    (jsStrEq s.stage stage = true →
      (f.name, toCompiled s (stage ++ "-" ++ rand f.name i), i) ∈ calls) := by
  have hpf : processFunctions stage rand functions = .ok calls := by
    unfold compileSubscriptionFilterEvents at hok
    cases hpre : preCheckResourceLimitExceeded functions with
    | error err =>
      rw [hpre] at hok
      cases hok
    | ok u =>
      rw [hpre] at hok
      exact hok
  constructor
  · intro hmis cs hmem
    obtain ⟨f2, hf2, ecalls, he2, hx⟩ :=
      processFunctions_sound stage rand functions calls hpf _ hmem
    obtain ⟨hg, hij, e3, s3, hidx, hsf3, hstg3, hcs3⟩ :=
      processEventsFrom_sound stage rand f2.name f2.events 0 ecalls he2 f.name cs i hx
    have hff : f2 = f := name_inj_of_nodup functions hnodup f2 f hf2 hf hg.symm
    subst hff
    rw [Nat.sub_zero] at hidx
    rw [he] at hidx
    obtain rfl := Option.some.inj hidx
    rw [hs] at hsf3
    obtain rfl := Option.some.inj hsf3
    rw [hmis] at hstg3
    exact Bool.false_ne_true hstg3
  · intro hmatch
    obtain ⟨ecalls, he2, hsub⟩ :=
      processFunctions_complete stage rand functions calls f hpf hf
    have hc := processEventsFrom_complete stage rand f.name f.events 0 ecalls i e s
      he2 he hs hmatch
    rw [Nat.zero_add] at hc
    exact hsub _ hc

theorem compileEvents_stage_selection_witness :
    (("fA" : String),
      toCompiled ⟨.str "dev", .str "g1", .str "p"⟩ ("dev" ++ "-" ++ "k3j2p"),
      (0 : Nat)) ∈
    ([("fA", ⟨"dev-k3j2p", "g1", "p"⟩, 0)] : List CompileCall) :=
  (compileEvents_stage_selection "dev" (fun _ _ => "k3j2p")
    [⟨"fA", [⟨some ⟨.str "dev", .str "g1", .str "p"⟩⟩,
             ⟨some ⟨.str "prod", .str "g2", .str "p"⟩⟩]⟩]
    [("fA", ⟨"dev-k3j2p", "g1", "p"⟩, 0)]
    rfl (by decide)
    ⟨"fA", [⟨some ⟨.str "dev", .str "g1", .str "p"⟩⟩,
            ⟨some ⟨.str "prod", .str "g2", .str "p"⟩⟩]⟩
    (List.mem_cons_self _ _) 0 ⟨some ⟨.str "dev", .str "g1", .str "p"⟩⟩
    (by decide) ⟨.str "dev", .str "g1", .str "p"⟩ rfl).2 rfl

/-- Claim C10: the static pre-check counts every declared event carrying a
subscriptionFilter property, whatever its stage or validity: whenever some
log-group key is declared more than the threshold of times, the run aborts
with the resource-limit error before any trigger is processed, and the
verdict of the pre-check depends only on the declared log-group keys. -/
theorem preCheck_counts_all_declared (stage : String) (rand : String → Nat → String)
    (functions : List FunctionDef)
    (h : ∃ g, LIMIT_CLOUDWATCH_FILTER_COUNT <
      (declaredLogGroupKeys functions).count g) :
    (∃ k, LIMIT_CLOUDWATCH_FILTER_COUNT < (declaredLogGroupKeys functions).count k ∧
      compileSubscriptionFilterEvents stage rand functions =
        .error (.resourceLimitExceeded k)) ∧
    (∀ functions2, declaredLogGroupKeys functions2 = declaredLogGroupKeys functions →
      preCheckResourceLimitExceeded functions2 =
        preCheckResourceLimitExceeded functions) := by
  constructor
  · obtain ⟨k, hf, hk⟩ := firstOverLimit_exists _ h
    refine ⟨k, hk, ?_⟩
    unfold compileSubscriptionFilterEvents preCheckResourceLimitExceeded
    rw [hf]
  · intro functions2 h2
    unfold preCheckResourceLimitExceeded firstOverLimit
    rw [h2]

theorem preCheck_counts_all_declared_witness :
    ∃ k, LIMIT_CLOUDWATCH_FILTER_COUNT <
        (declaredLogGroupKeys
          [⟨"f1", [⟨some ⟨.str "prod", .str "g", .str "p"⟩⟩,
                   ⟨some ⟨.str "prod", .str "g", .str "p"⟩⟩]⟩,
           ⟨"f2", [⟨some ⟨.str "dev", .str "g", .str "p"⟩⟩]⟩]).count k ∧
      compileSubscriptionFilterEvents "dev" (fun _ _ => "x")
          [⟨"f1", [⟨some ⟨.str "prod", .str "g", .str "p"⟩⟩,
                   ⟨some ⟨.str "prod", .str "g", .str "p"⟩⟩]⟩,
           ⟨"f2", [⟨some ⟨.str "dev", .str "g", .str "p"⟩⟩]⟩] =
        .error (.resourceLimitExceeded k) :=
  (preCheck_counts_all_declared "dev" (fun _ _ => "x")
    [⟨"f1", [⟨some ⟨.str "prod", .str "g", .str "p"⟩⟩,
             ⟨some ⟨.str "prod", .str "g", .str "p"⟩⟩]⟩,
     ⟨"f2", [⟨some ⟨.str "dev", .str "g", .str "p"⟩⟩]⟩]
    ⟨"g", by decide⟩).1
